import Mathlib

/-!
Verification development for the inferno repository: a shallow embedding of
the UNet topology builder and executor (src/inferno/extensions/models/unet.py)
and of the Cityscapes dataset constructor (src/inferno/io/box/cityscapes.py),
together with theorems settling the specification claims.

Conventions of the embedding:
* Python ints are modelled as Lean Int; tensor shapes as List Nat.
* Raised Python exceptions are modelled with Except. The spec names the
  construction-time RuntimeError "ConfigError" and the forward-time
  RuntimeError "ShapeError"; the PyError constructors follow those names and
  additionally distinguish AttributeError, IndexError and KeyError, which are
  different exception classes in Python.
* The nn.Module operators (convolutions, pooling, upsampling) are opaque
  weight-bearing callables; forward is modelled symbolically: applying the
  conv block of a stage, a pooling op, an upsampling op, or torch.cat is
  recorded as a node of the Tensor expression tree. This captures exactly
  which operators forward applies, in which order, and which intermediate
  results it collects as side outputs.
* The conv_op_factory of the deriving class returns a pair
  (operator, expose-as-side-output flag). Only the Bool flag influences the
  topology bookkeeping, so factories are embedded as a function
  StageKey -> Bool giving the returned flag of each stage.
-/

/-- Python exception classes raised by the embedded code. The spec calls the
construction-time RuntimeError "ConfigError" and the forward-pass RuntimeError
"ShapeError". -/
inductive PyError
  | configError
  | attributeError
  | shapeError
  | indexError
  | keyError
deriving DecidableEq, Repr

/-- Identifies a pipeline position of the UNet: the keys used by
`_side_out_num_channels` in UNetBase.__init__ — "start", ("down", d),
"bottom", ("up", d), "end". -/
inductive StageKey
  | start
  | down (d : Nat)
  | bottom
  | up (d : Nat)
  | «end»
deriving DecidableEq, Repr

/-- Symbolic tensor value: the expression tree of operator applications that
forward performs. `stage k t` is the conv block of stage `k` applied to `t`,
`pool d t` is `_downsample_ops[d]`, `upsample d t` is `_upsample_ops[d]`
(indexed by the loop variable of the upward pass), and `concat a b` is
`torch.cat([a, b], 1)`. -/
inductive Tensor
  | input
  | stage (k : StageKey) (t : Tensor)
  | pool (d : Nat) (t : Tensor)
  | upsample (d : Nat) (t : Tensor)
  | concat (a b : Tensor)
deriving DecidableEq, Repr

/-- Argument passed to forward: either a tuple of tensors (rejected by the
sanity check) or a tensor, identified by its shape. -/
inductive UNetInput
  | tuple
  | tensor (shape : List Nat)
deriving DecidableEq, Repr

/-- Return value of forward: a single tensor or a tuple of tensors. -/
inductive ForwardResult
  | single (t : Tensor)
  | multi (ts : List Tensor)
deriving DecidableEq, Repr

/-- Arguments of UNetBase.__init__ (unet.py line 50). `residual` and
`upsample_mode` influence only the opaque operators, not the topology, and are
omitted. `depth` is a count of downsampling steps (`range(self.depth)`), kept
as a Nat. -/
structure UNetConfig where
  dim : Int
  in_channels : Int
  initial_features : Int
  out_channels : Option Int
  depth : Nat
  gain : Int
deriving DecidableEq, Repr

/-- The constructed model: the settings members of UNetBase together with the
`_side_out_num_channels` ordered dictionary, modelled as an insertion-ordered
association list (its keys are pairwise distinct by construction). -/
structure UNetModel where
  dim : Int
  in_channels : Int
  initial_features : Int
  out_channels : Int
  depth : Nat
  gain : Int
  sideOut : List (StageKey × Int)
deriving DecidableEq, Repr

/-- Keys of `_side_out_num_channels` in insertion order. -/
def sideKeys (m : UNetModel) : List StageKey :=
  m.sideOut.map Prod.fst

/-- UNetBase.get_num_features (unet.py lines 110-116). For parts "down" and
"up" the result is `initial_features * gain ** (depth_index + 1)`, for
"bottom" it is `initial_features * gain ** (depth + 1)` (the depth_index
argument is ignored; the source passes None there), and any other part raises
RuntimeError (the ConfigError of the spec). Python raises an integer power to
an integer; all reachable calls have `depth_index + 1 >= 0`, where
`(depth_index + 1).toNat` agrees with the Python exponent. -/
def get_num_features (m : UNetModel) (part : String) (depth_index : Int) :
    Except PyError Int :=
  if part = "down" ∨ part = "up" then
    .ok (m.initial_features * m.gain ^ (depth_index + 1).toNat)
  else if part = "bottom" then
    .ok (m.initial_features * m.gain ^ (m.depth + 1))
  else
    .error .configError

/-- Value of get_num_features at call sites inside __init__, which only use
the literal parts "down", "up" and "bottom", where it never raises; the
error branch is unreachable there and mapped to 0. -/
def featuresOrZero (m : UNetModel) (part : String) (depth_index : Int) : Int :=
  match get_num_features m part depth_index with
  | .ok v => v
  | .error _ => 0

/-- UNetBase._inv_index (unet.py lines 361-364): flips a depth index,
`depth - 1 - index`. -/
def _inv_index (m : UNetModel) (index : Int) : Int :=
  (m.depth : Int) - 1 - index

/-- The `_side_out_num_channels` dictionary assembled by `_init_start`,
`_init_downstream`, `_init_bottom`, `_init_upstream` and `_init_end`, in that
order (unet.py lines 97-101). A ("down", d) or ("up", depth_index) entry is
inserted when the factory flag of that stage is true; `_init_upstream`
iterates i = 0..depth-1 and uses the flipped index `_inv_index i = depth-1-i`
(written here with Nat subtraction, equal on 0 <= i < depth); `_init_end`
always inserts the "end" entry, ignoring the returned flag (lines 208-211). -/
def buildSideOut (m : UNetModel) (flags : StageKey → Bool) :
    List (StageKey × Int) :=
  (if flags .start then [(StageKey.start, m.initial_features)] else [])
  ++ ((List.range m.depth).filter (fun d => flags (.down d))).map
      (fun d => (StageKey.down d, featuresOrZero m "down" (d : Int)))
  ++ (if flags .bottom then [(StageKey.bottom, featuresOrZero m "bottom" 0)] else [])
  ++ ((List.range m.depth).filter (fun i => flags (.up (m.depth - 1 - i)))).map
      (fun i => (StageKey.up (m.depth - 1 - i),
                 featuresOrZero m "up" ((m.depth - 1 - i : Nat) : Int)))
  ++ [(StageKey.«end», m.out_channels)]

/-- UNetBase.__init__ (unet.py lines 50-108). The early sanity check raises
RuntimeError (ConfigError) unless dim is 1, 2 or 3 (lines 55-57). When
out_channels is None, line 65 calls `self.get_num_channels(1)`: no such
method exists anywhere in the class hierarchy (the lookup method is named
`get_num_features` and takes (part, depth_index)), so Python raises
AttributeError. Otherwise the model is assembled and the side-output
dictionary filled in construction order. -/
def init (cfg : UNetConfig) (flags : StageKey → Bool) :
    Except PyError UNetModel :=
  if cfg.dim = 1 ∨ cfg.dim = 2 ∨ cfg.dim = 3 then
    match cfg.out_channels with
    | none => .error .attributeError
    | some oc =>
      let base : UNetModel :=
        { dim := cfg.dim, in_channels := cfg.in_channels,
          initial_features := cfg.initial_features, out_channels := oc,
          depth := cfg.depth, gain := cfg.gain, sideOut := [] }
      .ok { base with sideOut := buildSideOut base flags }
  else
    .error .configError

/-- Modelled from the spec: `max_allowed_ds_steps` is imported in unet.py from
inferno.utils.math_utils, which is not among the sources. The spec describes
it as a max-downsample-steps check "comparing the largest power-of-two factor
of each spatial extent against depth", with the effect that every spatial
extent must be divisible by `factor ^ depth`: it returns the greatest k such
that every extent of the shape is divisible by `factor ^ k` (searched up to
the largest extent, which bounds any such k for positive extents). -/
def max_allowed_ds_steps (shape : List Nat) (factor : Nat) : Nat :=
  Nat.findGreatest (fun k => (shape.all fun s => s % factor ^ k == 0) = true)
    (shape.foldr max 0)

/-- UNetBase._check_scaling (unet.py lines 251-256): raises RuntimeError
(ShapeError) when the spatial extents `shape[2:2+dim]` cannot be downsampled
`depth` times by factor 2. -/
def _check_scaling (m : UNetModel) (shape : List Nat) : Except PyError Unit :=
  if max_allowed_ds_steps ((shape.drop 2).take m.dim.toNat) 2 < m.depth then
    .error .shapeError
  else
    .ok ()

/-- UNetBase._forward_sanity_check (unet.py lines 236-248): rejects tuples
(RuntimeError), then reads `shape[1]` — which raises IndexError when the
shape has fewer than two axes — and compares it with in_channels
(RuntimeError on mismatch), then compares the rank with dim + 2 (RuntimeError
on mismatch), then delegates to `_check_scaling`. The RuntimeErrors are the
ShapeError of the spec. -/
def _forward_sanity_check (m : UNetModel) (input : UNetInput) :
    Except PyError Unit :=
  match input with
  | .tuple => .error .shapeError
  | .tensor shape =>
    match shape with
    | _ :: c :: _ =>
      if (c : Int) ≠ m.in_channels then .error .shapeError
      else if (shape.length : Int) ≠ m.dim + 2 then .error .shapeError
      else _check_scaling m shape
    | _ => .error .indexError

/-- Downward loop of UNetBase.forward (unet.py lines 277-287), iterating over
the list of depth indices: applies the conv block of stage ("down", d),
remembers the result in down_res, collects it as a side output when the stage
is registered in `_side_out_num_channels`, then applies the pooling op. -/
def runDown (m : UNetModel) :
    List Nat → Tensor → List Tensor → List Tensor →
    Tensor × List Tensor × List Tensor
  | [], out, downRes, sideOut => (out, downRes, sideOut)
  | d :: rest, out, downRes, sideOut =>
    let o := Tensor.stage (.down d) out
    let downRes := downRes ++ [o]
    let sideOut :=
      if StageKey.down d ∈ sideKeys m then sideOut ++ [o] else sideOut
    runDown m rest (Tensor.pool d o) downRes sideOut

/-- Upward loop of UNetBase.forward (unet.py lines 303-320): applies the
upsampling op, fetches `down_res[d]` from the reversed down results, applies
`torch.cat([a, out], 1)`, applies the conv block of stage
("up", `_inv_index d` = depth-1-d), and collects the result when that stage
is registered. -/
def runUp (m : UNetModel) :
    List Nat → List Tensor → Tensor → List Tensor → Tensor × List Tensor
  | [], _, out, sideOut => (out, sideOut)
  | d :: rest, downResRev, out, sideOut =>
    let o1 := Tensor.upsample d out
    let a := downResRev.getD d Tensor.input
    let o2 := Tensor.concat a o1
    let o3 := Tensor.stage (.up (m.depth - 1 - d)) o2
    let sideOut :=
      if StageKey.up (m.depth - 1 - d) ∈ sideKeys m then sideOut ++ [o3]
      else sideOut
    runUp m rest downResRev o3 sideOut

/-- Body of UNetBase.forward after the sanity check passed (unet.py lines
263-333): start block, downward loop, bottom block, upward loop over the
reversed down results, end block (whose result is always appended to the
side outputs, line 325); a single collected output is returned directly,
several are returned as a tuple. The body does not depend on the validated
input value, which enters as the symbolic `Tensor.input`. The Python `assert`
statements on runtime channel counts are internal invariants of the
construction and carry no information in the symbolic tensor model; the
stray `print` on line 296 has no effect on the result. -/
def forwardBody (m : UNetModel) : ForwardResult :=
  let out0 := Tensor.stage .start .input
  let side0 : List Tensor :=
    if StageKey.start ∈ sideKeys m then [out0] else []
  let r1 := runDown m (List.range m.depth) out0 [] side0
  let outB := Tensor.stage .bottom r1.1
  let side2 :=
    if StageKey.bottom ∈ sideKeys m then r1.2.2 ++ [outB] else r1.2.2
  let r2 := runUp m (List.range m.depth) r1.2.1.reverse outB side2
  let side4 := r2.2 ++ [Tensor.stage .«end» r2.1]
  if side4.length = 1 then .single (side4.headD .input)
  else .multi side4

/-- UNetBase.forward (unet.py lines 258-333): checks the input, then runs
the pipeline body. -/
def forward (m : UNetModel) (input : UNetInput) :
    Except PyError ForwardResult :=
  match _forward_sanity_check m input with
  | .error e => .error e
  | .ok _ => .ok (forwardBody m)

/-- Symbolic tensor entering the conv block of stage ("down", d): the start
block output for d = 0, otherwise the pooled output of the previous down
stage. -/
def downInT (m : UNetModel) : Nat → Tensor
  | 0 => Tensor.stage .start .input
  | d + 1 => .pool d (.stage (.down d) (downInT m d))

/-- Symbolic output of the conv block of stage ("down", d). -/
def downOutT (m : UNetModel) (d : Nat) : Tensor :=
  .stage (.down d) (downInT m d)

/-- Symbolic output of the bottom conv block. -/
def bottomOutT (m : UNetModel) : Tensor :=
  .stage .bottom (downInT m m.depth)

/-- Symbolic tensor held in `out` before iteration d of the upward loop:
the bottom output for d = 0, otherwise the output of the previous up stage. -/
def upPrevT (m : UNetModel) : Nat → Tensor
  | 0 => bottomOutT m
  | d + 1 =>
    .stage (.up (m.depth - 1 - d))
      (.concat (downOutT m (m.depth - 1 - d)) (.upsample d (upPrevT m d)))

/-- Symbolic output of iteration d of the upward loop, the conv block of
stage ("up", depth-1-d). -/
def upOutT (m : UNetModel) (d : Nat) : Tensor :=
  upPrevT m (d + 1)

/-- Symbolic output of the end block. -/
def endOutT (m : UNetModel) : Tensor :=
  .stage .«end» (upPrevT m m.depth)

/-- Symbolic output tensor of each stage of the pipeline. -/
def stageOutT (m : UNetModel) : StageKey → Tensor
  | .start => .stage .start .input
  | .down d => downOutT m d
  | .bottom => bottomOutT m
  | .up j => upOutT m (m.depth - 1 - j)
  | .«end» => endOutT m

/-- The stages preceding the end block, in construction (= insertion) order:
start, the down stages in forward order, bottom, the up stages in
construction order (depth indices depth-1 down to 0). -/
def stageKeysOrder (depth : Nat) : List StageKey :=
  [StageKey.start]
  ++ (List.range depth).map StageKey.down
  ++ [StageKey.bottom]
  ++ (List.range depth).map (fun i => StageKey.up (depth - 1 - i))

/-- Packaging of the collected outputs performed at the end of forward
(unet.py lines 330-333): one collected output is returned directly, several
as a tuple. -/
def mkResult (outs : List Tensor) : ForwardResult :=
  if outs.length = 1 then .single (outs.headD .input) else .multi outs

/-- The list of side outputs that forward collects, written stage-wise: the
flagged stages in execution order contribute their symbolic outputs, and the
end output is always last. -/
def sideListF (m : UNetModel) : List Tensor :=
  (if StageKey.start ∈ sideKeys m then [Tensor.stage .start .input] else [])
  ++ ((List.range m.depth).filter
        (fun d => StageKey.down d ∈ sideKeys m)).map (downOutT m)
  ++ (if StageKey.bottom ∈ sideKeys m then [bottomOutT m] else [])
  ++ ((List.range m.depth).filter
        (fun d => StageKey.up (m.depth - 1 - d) ∈ sideKeys m)).map (upOutT m)
  ++ [endOutT m]

/-- UNet.conv_op_factory (unet.py lines 393-408) ends with
`return conv, False`: the expose-as-side-output flag of the default concrete
UNet subclass is False for every part and depth index. -/
def unet_side_out_flag : StageKey → Bool := fun _ => false

/-- Cityscapes.SPLIT_NAME_MAPPING (cityscapes.py lines 88-94), as the
insertion-ordered association list of the dict literal. -/
def SPLIT_NAME_MAPPING : List (String × String) :=
  [("train", "train"), ("training", "train"),
   ("validate", "val"), ("val", "val"), ("validation", "val"),
   ("test", "test"), ("testing", "test")]

/-- get_matching_labelimage_file (cityscapes.py lines 64-68): splits the path
on "/", replaces the first component by "gtFine" and "leftImg8bit" by
"gtFine_labelIds" in the last component, and rejoins. -/
def get_matching_labelimage_file (f : String) : String :=
  let fs := f.splitOn "/"
  let fs := fs.set 0 "gtFine"
  let fs := fs.set (fs.length - 1)
    (((fs.getD (fs.length - 1) "").replace "leftImg8bit" "gtFine_labelIds"))
  String.intercalate "/" fs

/-- make_dataset (cityscapes.py lines 71-79): iterates over the archive
entries (modelled by their paths) in order and keeps those whose file name
ends with ".png" and whose second path component fn[1] equals the split,
paired with the matching label-image path. Python evaluates fn[1] only after
`fn[-1].endswith('.png')` returned True (the `and` short-circuits); for a
root-level ".png" entry, whose path has no "/", fn has a single component and
fn[1] raises IndexError, aborting the construction. fn[-1] is modelled with
getLastD, safe because splitOn never returns an empty list. -/
def make_dataset (filelist : List String) (split : String) :
    Except PyError (List (String × String)) :=
  match filelist with
  | [] => .ok []
  | f :: rest =>
    let fn := f.splitOn "/"
    if (fn.getLastD "").endsWith ".png" then
      match fn.drop 1 with
      | [] => .error .indexError
      | c :: _ =>
        if c = split then
          match make_dataset rest split with
          | .error e => .error e
          | .ok tail => .ok ((f, get_matching_labelimage_file f) :: tail)
        else make_dataset rest split
    else make_dataset rest split

/-- The state of a constructed Cityscapes dataset that the claims concern:
the canonical split and the image path pairs. -/
structure Cityscapes where
  split : String
  image_paths : List (String × String)
deriving DecidableEq, Repr

/-- Cityscapes.__init__ (cityscapes.py lines 100-120): asserts that the split
argument is a key of SPLIT_NAME_MAPPING, raising KeyError otherwise, before
canonicalising it with the mapping and only then reading the image archive
(modelled by its file list) through make_dataset, whose IndexError on a
malformed archive propagates out of the constructor. -/
def cityscapesInit (filelist : List String) (split : String) :
    Except PyError Cityscapes :=
  if (SPLIT_NAME_MAPPING.map Prod.fst).contains split then
    match make_dataset filelist ((SPLIT_NAME_MAPPING.lookup split).getD "") with
    | .error e => .error e
    | .ok paths =>
      .ok { split := (SPLIT_NAME_MAPPING.lookup split).getD "",
            image_paths := paths }
  else
    .error .keyError

/-- Sample model used by witnesses of the channel-lookup claims. -/
def mEx : UNetModel :=
  { dim := 2, in_channels := 1, initial_features := 4, out_channels := 3,
    depth := 3, gain := 2, sideOut := [] }

/-- Configuration with out_channels omitted, the failing input of the
out_channels default. -/
def cfgC1 : UNetConfig :=
  { dim := 2, in_channels := 3, initial_features := 8, out_channels := none,
    depth := 3, gain := 2 }

/-- Configuration dim=2, depth=3 used for the forward sanity-check claims. -/
def cfgC2 : UNetConfig :=
  { dim := 2, in_channels := 3, initial_features := 8, out_channels := some 2,
    depth := 3, gain := 2 }

/-- The model constructed from cfgC2 with no side outputs flagged. -/
def mC2 : UNetModel :=
  { dim := 2, in_channels := 3, initial_features := 8, out_channels := 2,
    depth := 3, gain := 2, sideOut := [(StageKey.«end», 2)] }

/-- Depth-1 configuration with the ("down", 0) stage flagged for side
output. -/
def cfgC4 : UNetConfig :=
  { dim := 2, in_channels := 3, initial_features := 8, out_channels := some 4,
    depth := 1, gain := 2 }

/-- Factory flags that expose the ("down", 0) stage as a side output. -/
def flagsC4 : StageKey → Bool :=
  fun k => match k with
  | .down 0 => true
  | _ => false

/-- The model constructed from cfgC4 with flagsC4. -/
def mC4 : UNetModel :=
  { dim := 2, in_channels := 3, initial_features := 8, out_channels := 4,
    depth := 1, gain := 2,
    sideOut := [(StageKey.down 0, 16), (StageKey.«end», 4)] }

/-- Depth-0 configuration with explicit out_channels. -/
def cfgC5 : UNetConfig :=
  { dim := 2, in_channels := 3, initial_features := 8, out_channels := some 5,
    depth := 0, gain := 2 }

/-- The model constructed from cfgC5 with no side outputs flagged. -/
def mC5 : UNetModel :=
  { dim := 2, in_channels := 3, initial_features := 8, out_channels := 5,
    depth := 0, gain := 2, sideOut := [(StageKey.«end», 5)] }

/-! ## Helper lemmas -/

/-- A spatial extent not divisible by `factor_pow = 2 ^ depth` forces the
max-downsample-steps value below depth. -/
theorem max_allowed_ds_steps_lt (sp : List Nat) (dpt s : Nat)
    (hs : s ∈ sp) (hnd : ¬ (2 ^ dpt ∣ s)) :
    max_allowed_ds_steps sp 2 < dpt := by
  by_contra hle
  push_neg at hle
  have h0 : dpt ≠ 0 := by
    intro h
    exact hnd (by simp [h])
  have hmx : max_allowed_ds_steps sp 2 ≠ 0 := by omega
  have hP : (sp.all fun t => t % 2 ^ max_allowed_ds_steps sp 2 == 0) = true :=
    Nat.findGreatest_of_ne_zero rfl hmx
  have hsdvd : 2 ^ max_allowed_ds_steps sp 2 ∣ s :=
    Nat.dvd_of_mod_eq_zero (by simpa using List.all_eq_true.1 hP s hs)
  exact hnd (dvd_trans (pow_dvd_pow 2 hle) hsdvd)

/-- A sanity-check failure propagates unchanged out of forward: no stage is
executed. -/
theorem forward_error_of_sanity (m : UNetModel) (input : UNetInput)
    {e : PyError} (h : _forward_sanity_check m input = .error e) :
    forward m input = .error e := by
  unfold forward
  rw [h]

/-! ## Claims C1, C3, C6, C7, C8 -/

/-- C1: constructing with out_channels omitted never succeeds — the source
calls the nonexistent method `self.get_num_channels(1)` (unet.py line 65; the
lookup method is named `get_num_features` and takes (part, depth_index)), so
Python raises AttributeError instead of defaulting out_channels to
initial_features * gain. -/
theorem c1_out_channels_none (cfg : UNetConfig) (flags : StageKey → Bool)
    (hoc : cfg.out_channels = none)
    (hdim : cfg.dim = 1 ∨ cfg.dim = 2 ∨ cfg.dim = 3) :
    init cfg flags = .error .attributeError := by
  unfold init
  rw [if_pos hdim, hoc]

/-- Witness for C1 at the concrete failing input cfgC1. -/
theorem c1_witness :
    init cfgC1 unet_side_out_flag = .error .attributeError :=
  c1_out_channels_none cfgC1 unet_side_out_flag rfl (Or.inr (Or.inl rfl))

/-- C3: the channel-count lookup returns initial_features * gain^(i+1) for
parts "down" and "up", returns initial_features * gain^(depth+1) for part
"bottom" independently of the depth_index argument, and raises the
construction RuntimeError (ConfigError) for every other part. -/
theorem c3_get_num_features (m : UNetModel) :
    (∀ di : Int, 0 ≤ di →
      get_num_features m "down" di
          = .ok (m.initial_features * m.gain ^ (di.toNat + 1))
        ∧ get_num_features m "up" di
          = .ok (m.initial_features * m.gain ^ (di.toNat + 1)))
    ∧ (∀ di : Int, get_num_features m "bottom" di
        = .ok (m.initial_features * m.gain ^ (m.depth + 1)))
    ∧ (∀ part : String, part ≠ "down" → part ≠ "up" → part ≠ "bottom" →
        ∀ di : Int, get_num_features m part di = .error .configError) := by
  refine ⟨fun di h0 => ?_, fun di => rfl, fun part h1 h2 h3 di => ?_⟩
  · have ht : (di + 1).toNat = di.toNat + 1 := by omega
    exact ⟨by simp [get_num_features, ht], by simp [get_num_features, ht]⟩
  · simp [get_num_features, h1, h2, h3]

/-- Witness for C3 at the sample model mEx (initial_features 4, gain 2,
depth 3). -/
theorem c3_witness :
    get_num_features mEx "down" 1 = .ok 16
    ∧ get_num_features mEx "up" 1 = .ok 16
    ∧ get_num_features mEx "bottom" 0 = get_num_features mEx "bottom" 99
    ∧ get_num_features mEx "bottom" 0 = .ok 64
    ∧ get_num_features mEx "side" 5 = .error .configError := by
  obtain ⟨hdu, hb, hbad⟩ := c3_get_num_features mEx
  refine ⟨?_, ?_, ?_, ?_, ?_⟩
  · simpa using (hdu 1 (by norm_num)).1
  · simpa using (hdu 1 (by norm_num)).2
  · rw [hb 0, hb 99]
  · simpa using hb 0
  · exact hbad "side" (by decide) (by decide) (by decide) 5

/-- C6: construction raises the early RuntimeError (ConfigError) exactly when
dim is not 1, 2 or 3; the check is the first statement of __init__ (unet.py
lines 55-57), before any stage or operator is created. -/
theorem c6_dim_check (cfg : UNetConfig) (flags : StageKey → Bool) :
    init cfg flags = .error .configError
      ↔ ¬ (cfg.dim = 1 ∨ cfg.dim = 2 ∨ cfg.dim = 3) := by
  unfold init
  by_cases h : cfg.dim = 1 ∨ cfg.dim = 2 ∨ cfg.dim = 3
  · rw [if_pos h]
    simp only [h, not_true_eq_false, iff_false]
    cases cfg.out_channels <;> simp
  · rw [if_neg h]
    simp [h]

/-- C7: the channel counts of mirrored stages match — for every depth index
in range, channels for ("down", i) and ("up", i) agree, so skip-connected
stages have matching channel counts. -/
theorem c7_down_up_symmetry (m : UNetModel) (di : Int)
    (h0 : 0 ≤ di) (hlt : di < (m.depth : Int)) :
    get_num_features m "down" di = get_num_features m "up" di := rfl

/-- Witness for C7 at mEx with depth index 1. -/
theorem c7_witness :
    get_num_features mEx "down" 1 = get_num_features mEx "up" 1 :=
  c7_down_up_symmetry mEx 1 (by norm_num) (by decide)

/-- C8: the index flip satisfies `_inv_index i = depth - 1 - i` and is an
involution on [0, depth). -/
theorem c8_inv_index (m : UNetModel) (i : Int)
    (h0 : 0 ≤ i) (hlt : i < (m.depth : Int)) :
    _inv_index m i = (m.depth : Int) - 1 - i
    ∧ _inv_index m (_inv_index m i) = i := by
  unfold _inv_index
  omega

/-- Witness for C8 at mEx (depth 3) and index 1. -/
theorem c8_witness :
    _inv_index mEx 1 = (mEx.depth : Int) - 1 - 1
    ∧ _inv_index mEx (_inv_index mEx 1) = 1 :=
  c8_inv_index mEx 1 (by norm_num) (by decide)

/-! ## Claim C2 -/

/-- C2 (amended): forward raises the sanity-check RuntimeError (ShapeError),
executing no stage, when the input is a tuple, and for any tensor whose shape
has at least two axes when the channel axis differs from in_channels, the
rank differs from dim + 2, or some spatial extent is not divisible by
2 ^ depth; a tensor of rank below two instead raises IndexError, because the
channel check reads shape[1] before the rank check. -/
theorem c2_forward_sanity (m : UNetModel) :
    forward m .tuple = .error .shapeError
    ∧ (∀ shape : List Nat, 2 ≤ shape.length →
        ((shape.getD 1 0 : Int) ≠ m.in_channels
          ∨ (shape.length : Int) ≠ m.dim + 2
          ∨ ∃ s ∈ (shape.drop 2).take m.dim.toNat, ¬ (2 ^ m.depth ∣ s)) →
        forward m (.tensor shape) = .error .shapeError)
    ∧ (∀ shape : List Nat, shape.length < 2 →
        forward m (.tensor shape) = .error .indexError) := by
  refine ⟨rfl, fun shape hlen hcond => ?_, fun shape hlen => ?_⟩
  · match shape, hlen, hcond with
    | a :: c :: rest, _, hcond =>
      apply forward_error_of_sanity
      have hred : _forward_sanity_check m (.tensor (a :: c :: rest)) =
          (if (c : Int) ≠ m.in_channels then .error .shapeError
           else if ((a :: c :: rest).length : Int) ≠ m.dim + 2 then
             .error .shapeError
           else _check_scaling m (a :: c :: rest)) := rfl
      rw [hred]
      by_cases h1 : (c : Int) ≠ m.in_channels
      · rw [if_pos h1]
      · rw [if_neg h1]
        by_cases h2 : ((a :: c :: rest).length : Int) ≠ m.dim + 2
        · rw [if_pos h2]
        · rw [if_neg h2]
          have hdiv : ∃ s ∈ ((a :: c :: rest).drop 2).take m.dim.toNat,
              ¬ (2 ^ m.depth ∣ s) := by
            rcases hcond with hc | hc | hc
            · exact absurd (by simpa using hc) h1
            · exact absurd hc h2
            · exact hc
          obtain ⟨s, hs, hnd⟩ := hdiv
          have hscal :
              max_allowed_ds_steps (((a :: c :: rest).drop 2).take m.dim.toNat) 2
                < m.depth := max_allowed_ds_steps_lt _ _ s hs hnd
          unfold _check_scaling
          rw [if_pos hscal]
  · match shape, hlen with
    | [], _ => rfl
    | [a], _ => rfl

/-- Witness for C2 at the constructed model mC2 (dim 2, depth 3,
in_channels 3): the spec example with spatial shape (10, 10) raises, 10 not
being divisible by 2^3, and a tuple input raises. -/
theorem c2_witness :
    forward mC2 (.tensor [1, 3, 10, 10]) = .error .shapeError
    ∧ forward mC2 .tuple = .error .shapeError := by
  refine ⟨(c2_forward_sanity mC2).2.1 [1, 3, 10, 10] (by norm_num) ?_,
          (c2_forward_sanity mC2).1⟩
  exact Or.inr (Or.inr ⟨10, by decide, by decide⟩)

/-- C2 counterexample: on the model constructed from cfgC2 a rank-1 tensor
input differs in rank from dim + 2 = 4, so the claim as stated demands a
ShapeError, but the code raises IndexError when the channel check reads
shape[1] of a one-axis shape. -/
theorem c2_counterexample :
    init cfgC2 unet_side_out_flag = .ok mC2
    ∧ (([5] : List Nat).length : Int) ≠ mC2.dim + 2
    ∧ forward mC2 (.tensor [5]) = .error .indexError
    ∧ forward mC2 (.tensor [5]) ≠ .error .shapeError := by
  refine ⟨rfl, by decide, rfl, ?_⟩
  simp [show forward mC2 (.tensor [5]) = Except.error .indexError from rfl]

/-! ## Claim C10 -/

set_option maxHeartbeats 1000000 in
/-- The only exception make_dataset raises is IndexError (the fn[1] access on
a root-level ".png" archive entry). -/
theorem make_dataset_error (split : String) :
    ∀ (filelist : List String) (e : PyError),
      make_dataset filelist split = .error e → e = .indexError := by
  intro filelist
  induction filelist with
  | nil =>
    intro e h
    rw [show make_dataset [] split
        = (Except.ok [] : Except PyError (List (String × String))) from rfl] at h
    exact Except.noConfusion h
  | cons f rest ih =>
    intro e h
    rw [show make_dataset (f :: rest) split =
        (if ((f.splitOn "/").getLastD "").endsWith ".png" then
          match (f.splitOn "/").drop 1 with
          | [] => .error .indexError
          | c :: _ =>
            if c = split then
              match make_dataset rest split with
              | .error e2 => .error e2
              | .ok tail => .ok ((f, get_matching_labelimage_file f) :: tail)
            else make_dataset rest split
        else make_dataset rest split) from rfl] at h
    split at h
    · split at h
      · injection h with h
        exact h.symm
      · split at h
        · split at h
          · rename_i e2 heq
            injection h with h
            exact h ▸ ih e2 heq
          · exact Except.noConfusion h
        · exact ih e h
    · exact ih e h

/-- Every successfully constructed Cityscapes dataset carries the canonical
split the mapping assigns to the split argument. -/
theorem cityscapesInit_split (filelist : List String) (split : String)
    (ds : Cityscapes) (h : cityscapesInit filelist split = .ok ds) :
    ds.split = (SPLIT_NAME_MAPPING.lookup split).getD "" := by
  unfold cityscapesInit at h
  by_cases hc : (SPLIT_NAME_MAPPING.map Prod.fst).contains split = true
  · rw [if_pos hc] at h
    cases hmd : make_dataset filelist ((SPLIT_NAME_MAPPING.lookup split).getD "")
      with
    | ok paths =>
      rw [hmd] at h
      injection h with h
      rw [← h]
    | error e =>
      rw [hmd] at h
      exact absurd h (by simp)
  · rw [if_neg hc] at h
    exact absurd h (by simp)

/-- C10: the Cityscapes constructor accepts exactly the split names train,
training, validate, val, validation, test, testing — for these the split
check passes (never a KeyError, and construction either succeeds or fails
with the archive-reading IndexError of make_dataset), canonicalising the
split to train, val or test in every successful construction — and raises
KeyError for every other split value; the check precedes the reading of the
archive, so the rejection holds for every archive file list. -/
theorem c10_split_validation (filelist : List String) (split : String) :
    (split ∉ ["train", "training", "validate", "val", "validation",
              "test", "testing"] →
      cityscapesInit filelist split = .error .keyError)
    ∧ (split ∈ ["train", "training", "validate", "val", "validation",
                "test", "testing"] →
      cityscapesInit filelist split ≠ .error .keyError
      ∧ ((∃ ds, cityscapesInit filelist split = .ok ds)
          ∨ cityscapesInit filelist split = .error .indexError))
    ∧ (split = "train" ∨ split = "training" →
      ∀ ds, cityscapesInit filelist split = .ok ds → ds.split = "train")
    ∧ (split = "validate" ∨ split = "val" ∨ split = "validation" →
      ∀ ds, cityscapesInit filelist split = .ok ds → ds.split = "val")
    ∧ (split = "test" ∨ split = "testing" →
      ∀ ds, cityscapesInit filelist split = .ok ds → ds.split = "test") := by
  refine ⟨fun hko => ?_, fun hin => ?_, fun h => ?_, fun h => ?_, fun h => ?_⟩
  · unfold cityscapesInit
    rw [if_neg]
    intro hmem
    exact hko (by simpa [SPLIT_NAME_MAPPING, List.contains, List.elem_iff]
      using hmem)
  · have hc : (SPLIT_NAME_MAPPING.map Prod.fst).contains split = true := by
      simpa [SPLIT_NAME_MAPPING, List.contains, List.elem_iff] using hin
    unfold cityscapesInit
    rw [if_pos hc]
    cases hmd : make_dataset filelist ((SPLIT_NAME_MAPPING.lookup split).getD "")
      with
    | ok paths => exact ⟨by simp, .inl ⟨_, rfl⟩⟩
    | error e =>
      have he := make_dataset_error _ filelist e hmd
      subst he
      exact ⟨by simp, .inr rfl⟩
  · rcases h with rfl | rfl <;>
      exact fun ds hds => cityscapesInit_split filelist _ ds hds
  · rcases h with rfl | rfl | rfl <;>
      exact fun ds hds => cityscapesInit_split filelist _ ds hds
  · rcases h with rfl | rfl <;>
      exact fun ds hds => cityscapesInit_split filelist _ ds hds

/-- Witness for C10: the misspelled split "trian" is rejected for any
archive; "validation" passes the split check on a populated archive, and
"training" constructs a dataset whose canonical split is "train". -/
theorem c10_witness :
    cityscapesInit ["x"] "trian" = .error .keyError
    ∧ cityscapesInit ["a/train/x.png"] "validation" ≠ .error .keyError
    ∧ ∃ ds, cityscapesInit [] "training" = .ok ds ∧ ds.split = "train" := by
  refine ⟨(c10_split_validation ["x"] "trian").1 (by decide), ?_, ?_⟩
  · exact ((c10_split_validation
      ["a/train/x.png"] "validation").2.1 (by decide)).1
  · refine ⟨{ split := "train", image_paths := [] }, rfl, ?_⟩
    exact (c10_split_validation [] "training").2.2.1 (Or.inr rfl) _ rfl

/-! ## Loop invariants of forward -/

/-- Invariant of the downward loop: started at depth index i with the tensor
entering stage ("down", i), it ends with the tensor entering stage
("down", i+n), appends all down-stage outputs to down_res, and appends the
outputs of the flagged down stages, in forward order, to the side outputs. -/
theorem runDown_spec (m : UNetModel) (n : Nat) :
    ∀ (i : Nat) (dr so : List Tensor),
    runDown m (List.range' i n) (downInT m i) dr so =
      (downInT m (i + n),
       dr ++ (List.range' i n).map (downOutT m),
       so ++ ((List.range' i n).filter
               (fun d => StageKey.down d ∈ sideKeys m)).map (downOutT m)) := by
  induction n with
  | zero => intro i dr so; simp [runDown, List.range']
  | succ n ih =>
    intro i dr so
    rw [List.range'_succ]
    show runDown m (i :: List.range' (i + 1) n) (downInT m i) dr so = _
    rw [runDown]
    rw [show Tensor.pool i (Tensor.stage (.down i) (downInT m i))
          = downInT m (i + 1) from rfl]
    rw [ih (i + 1)]
    have harith : i + 1 + n = i + (n + 1) := by omega
    by_cases hmem : StageKey.down i ∈ sideKeys m <;>
      simp [hmem, harith, List.range'_succ, List.filter_cons, downOutT]

/-- Entry d of the reversed down-result stack is the output of the mirrored
down stage depth-1-d. -/
theorem downRes_rev_getD (m : UNetModel) (i : Nat) (h : i < m.depth) :
    (((List.range m.depth).map (downOutT m)).reverse).getD i Tensor.input
      = downOutT m (m.depth - 1 - i) := by
  have hlen : i < (((List.range m.depth).map (downOutT m)).reverse).length := by
    simpa using h
  rw [List.getD_eq_getElem _ _ hlen, List.getElem_reverse]
  simp

/-- Invariant of the upward loop: started at loop index i with the tensor
entering iteration i, it ends with the tensor leaving iteration i+n-1 and
appends the outputs of the flagged up stages, in forward order, to the side
outputs. -/
theorem runUp_spec (m : UNetModel) (n : Nat) :
    ∀ (i : Nat) (so : List Tensor), i + n ≤ m.depth →
    runUp m (List.range' i n) (((List.range m.depth).map (downOutT m)).reverse)
        (upPrevT m i) so =
      (upPrevT m (i + n),
       so ++ ((List.range' i n).filter
               (fun d => StageKey.up (m.depth - 1 - d) ∈ sideKeys m)).map
             (upOutT m)) := by
  induction n with
  | zero => intro i so _; simp [runUp, List.range']
  | succ n ih =>
    intro i so hle
    rw [List.range'_succ]
    show runUp m (i :: List.range' (i + 1) n) _ (upPrevT m i) so = _
    rw [runUp]
    rw [downRes_rev_getD m i (by omega)]
    rw [show Tensor.stage (.up (m.depth - 1 - i))
          (.concat (downOutT m (m.depth - 1 - i)) (.upsample i (upPrevT m i)))
          = upPrevT m (i + 1) from rfl]
    rw [ih (i + 1) _ (by omega)]
    have harith : i + 1 + n = i + (n + 1) := by omega
    by_cases hmem : StageKey.up (m.depth - 1 - i) ∈ sideKeys m <;>
      simp [hmem, harith, List.filter_cons, upOutT]

/-- Inversion of a successful construction: the model fields copy the
configuration and the side-output keys are the construction-ordered stages
filtered by the factory flags, with "end" always appended last. -/
theorem init_ok_inv (cfg : UNetConfig) (flags : StageKey → Bool)
    (m : UNetModel) (hm : init cfg flags = .ok m) :
    m.depth = cfg.depth
    ∧ sideKeys m = (stageKeysOrder m.depth).filter (fun k => flags k)
        ++ [StageKey.«end»] := by
  unfold init at hm
  by_cases hdim : cfg.dim = 1 ∨ cfg.dim = 2 ∨ cfg.dim = 3
  · rw [if_pos hdim] at hm
    cases hoc : cfg.out_channels with
    | none => rw [hoc] at hm; cases hm
    | some oc =>
      rw [hoc] at hm
      simp only [Except.ok.injEq] at hm
      subst hm
      refine ⟨rfl, ?_⟩
      simp only [sideKeys, buildSideOut, stageKeysOrder,
        List.map_append, List.map_map, List.filter_append, List.filter_cons,
        List.filter_nil, List.filter_map, apply_ite (List.map Prod.fst),
        List.map_cons, List.map_nil, Function.comp_def]
  · rw [if_neg hdim] at hm
    cases hm

/-- The forward body evaluates to the packaged stage-wise side-output list. -/
theorem forwardBody_eq (m : UNetModel) :
    forwardBody m = mkResult (sideListF m) := by
  unfold forwardBody
  dsimp only
  rw [List.range_eq_range']
  rw [show Tensor.stage .start .input = downInT m 0 from rfl]
  rw [runDown_spec]
  rw [Nat.zero_add]
  rw [show Tensor.stage .bottom (downInT m m.depth) = upPrevT m 0 from rfl]
  rw [show ([] : List Tensor) ++ (List.range' 0 m.depth).map (downOutT m)
        = (List.range m.depth).map (downOutT m) by
      simp [List.range_eq_range']]
  rw [runUp_spec m m.depth 0 _ (by omega)]
  rw [Nat.zero_add]
  rw [show Tensor.stage .«end» (upPrevT m m.depth) = endOutT m from rfl]
  rw [show upPrevT m 0 = bottomOutT m from rfl]
  unfold mkResult sideListF
  rw [← List.range_eq_range']
  by_cases h1 : StageKey.start ∈ sideKeys m <;>
    by_cases h2 : StageKey.bottom ∈ sideKeys m <;>
      simp [h1, h2, List.append_assoc,
        show downInT m 0 = Tensor.stage .start .input from rfl]

/-- The side outputs collected by forward are exactly the registered stages,
in registry order, evaluated at their symbolic stage outputs. -/
theorem sideListF_eq (cfg : UNetConfig) (flags : StageKey → Bool)
    (m : UNetModel) (hm : init cfg flags = .ok m) :
    sideListF m = (sideKeys m).map (stageOutT m) := by
  obtain ⟨-, hkeys⟩ := init_ok_inv cfg flags m hm
  have hmemstart : (StageKey.start ∈ sideKeys m) ↔ flags .start = true := by
    rw [hkeys]
    constructor
    · intro hin
      rcases List.mem_append.1 hin with hin | hin
      · exact (List.mem_filter.1 hin).2
      · simp at hin
    · intro hf
      exact List.mem_append.2 (.inl (List.mem_filter.2
        ⟨by simp [stageKeysOrder], hf⟩))
  have hmembottom : (StageKey.bottom ∈ sideKeys m) ↔ flags .bottom = true := by
    rw [hkeys]
    constructor
    · intro hin
      rcases List.mem_append.1 hin with hin | hin
      · exact (List.mem_filter.1 hin).2
      · simp at hin
    · intro hf
      exact List.mem_append.2 (.inl (List.mem_filter.2
        ⟨by simp [stageKeysOrder], hf⟩))
  have hmemdown : ∀ d, d < m.depth →
      ((StageKey.down d ∈ sideKeys m) ↔ flags (.down d) = true) := by
    intro d hd
    rw [hkeys]
    constructor
    · intro hin
      rcases List.mem_append.1 hin with hin | hin
      · exact (List.mem_filter.1 hin).2
      · simp at hin
    · intro hf
      exact List.mem_append.2 (.inl (List.mem_filter.2
        ⟨by simp [stageKeysOrder, hd], hf⟩))
  have hmemup : ∀ d, d < m.depth →
      ((StageKey.up (m.depth - 1 - d) ∈ sideKeys m)
        ↔ flags (.up (m.depth - 1 - d)) = true) := by
    intro d hd
    rw [hkeys]
    constructor
    · intro hin
      rcases List.mem_append.1 hin with hin | hin
      · exact (List.mem_filter.1 hin).2
      · simp at hin
    · intro hf
      refine List.mem_append.2 (.inl (List.mem_filter.2 ⟨?_, hf⟩))
      unfold stageKeysOrder
      exact List.mem_append.2 (.inr (List.mem_map.2
        ⟨d, List.mem_range.2 hd, rfl⟩))
  have hfd : (List.range m.depth).filter
        (fun d => StageKey.down d ∈ sideKeys m)
      = (List.range m.depth).filter (fun d => flags (.down d)) := by
    apply List.filter_congr
    intro d hd
    have h := hmemdown d (List.mem_range.1 hd)
    by_cases hb : flags (.down d) = true
    · simp [h.mpr hb, hb]
    · have hnm : ¬ (StageKey.down d ∈ sideKeys m) := fun hmem => hb (h.mp hmem)
      simp [hnm, hb]
  have hfu : (List.range m.depth).filter
        (fun d => StageKey.up (m.depth - 1 - d) ∈ sideKeys m)
      = (List.range m.depth).filter
        (fun d => flags (.up (m.depth - 1 - d))) := by
    apply List.filter_congr
    intro d hd
    have h := hmemup d (List.mem_range.1 hd)
    by_cases hb : flags (.up (m.depth - 1 - d)) = true
    · simp [h.mpr hb, hb]
    · have hnm : ¬ (StageKey.up (m.depth - 1 - d) ∈ sideKeys m) :=
        fun hmem => hb (h.mp hmem)
      simp [hnm, hb]
  conv_rhs => rw [hkeys]
  unfold sideListF stageKeysOrder
  rw [hfd, hfu]
  simp only [hmemstart, hmembottom]
  simp only [List.filter_append, List.filter_cons, List.filter_nil,
    List.filter_map, List.map_append, List.map_map, List.map_cons,
    List.map_nil, Function.comp_def, apply_ite (List.map (stageOutT m)),
    stageOutT]
  have hupmap :
      ((List.range m.depth).filter
          (fun i => flags (.up (m.depth - 1 - i)))).map
            (fun i => upOutT m (m.depth - 1 - (m.depth - 1 - i)))
        = ((List.range m.depth).filter
            (fun i => flags (.up (m.depth - 1 - i)))).map (upOutT m) := by
    apply List.map_congr_left
    intro a ha
    have halt : a < m.depth := List.mem_range.1 (List.mem_filter.1 ha).1
    congr 1
    omega
  rw [hupmap]

/-- Structure of a forward pass on a constructed model and validated input:
the side-output keys are the flagged stages in construction order with "end"
always last, and the returned value packages the corresponding symbolic
stage outputs. -/
theorem forward_structure (cfg : UNetConfig) (flags : StageKey → Bool)
    (m : UNetModel) (hm : init cfg flags = .ok m) (input : UNetInput)
    (hv : _forward_sanity_check m input = .ok ()) :
    sideKeys m = (stageKeysOrder m.depth).filter (fun k => flags k)
        ++ [StageKey.«end»]
    ∧ forward m input = .ok (mkResult ((sideKeys m).map (stageOutT m))) := by
  refine ⟨(init_ok_inv cfg flags m hm).2, ?_⟩
  have h1 : forward m input = .ok (forwardBody m) := by
    unfold forward
    rw [hv]
  rw [h1, forwardBody_eq, sideListF_eq cfg flags m hm]

/-! ## Claim C4 -/

/-- C4: on every constructed model and valid input, forward returns the
collected outputs of the flagged stages plus the always-collected end output,
as a single tensor when exactly one was collected and as an ordered tuple
otherwise, ordered start, down stages, bottom, up stages, end (the
construction order of the side-output registry); the count of collected
outputs is the number of flagged stages plus one. -/
theorem c4_forward_collection (cfg : UNetConfig) (flags : StageKey → Bool)
    (m : UNetModel) (hm : init cfg flags = .ok m) (input : UNetInput)
    (hv : _forward_sanity_check m input = .ok ()) :
    forward m input = .ok (mkResult ((sideKeys m).map (stageOutT m)))
    ∧ sideKeys m = (stageKeysOrder m.depth).filter (fun k => flags k)
        ++ [StageKey.«end»]
    ∧ (sideKeys m).length
        = ((stageKeysOrder m.depth).filter (fun k => flags k)).length + 1 := by
  obtain ⟨hkeys, hfwd⟩ := forward_structure cfg flags m hm input hv
  refine ⟨hfwd, hkeys, ?_⟩
  rw [hkeys]
  simp

/-- Witness for C4: the depth-1 model mC4 with the ("down", 0) stage flagged
returns, on the valid input of shape [1, 3, 4, 4], the ordered pair of the
("down", 0) output and the end output. -/
theorem c4_witness :
    forward mC4 (.tensor [1, 3, 4, 4])
      = .ok (mkResult ((sideKeys mC4).map (stageOutT mC4)))
    ∧ sideKeys mC4 = (stageKeysOrder mC4.depth).filter (fun k => flagsC4 k)
        ++ [StageKey.«end»]
    ∧ (sideKeys mC4).length
        = ((stageKeysOrder mC4.depth).filter (fun k => flagsC4 k)).length + 1 :=
  c4_forward_collection cfgC4 flagsC4 mC4 rfl (.tensor [1, 3, 4, 4]) rfl

/-! ## Claim C9 -/

/-- C9: the default concrete UNet subclass flags no stage for side output
(its conv_op_factory returns False for every part and depth index), so on any
valid input its forward pass returns exactly one tensor — the end output —
and never a tuple. -/
theorem c9_unet_single_output (cfg : UNetConfig) (m : UNetModel)
    (hm : init cfg unet_side_out_flag = .ok m) (input : UNetInput)
    (hv : _forward_sanity_check m input = .ok ()) :
    forward m input = .ok (.single (endOutT m)) := by
  obtain ⟨hkeys, hfwd⟩ :=
    forward_structure cfg unet_side_out_flag m hm input hv
  have hk : sideKeys m = [StageKey.«end»] := by
    rw [hkeys]
    simp [unet_side_out_flag]
  rw [hfwd, hk]
  simp [mkResult, stageOutT]

/-- Witness for C9: the model built from cfgC2 with the UNet factory flags
returns a single tensor on the valid input of shape [1, 3, 16, 16]. -/
theorem c9_witness :
    forward mC2 (.tensor [1, 3, 16, 16]) = .ok (.single (endOutT mC2)) :=
  c9_unet_single_output cfgC2 mC2 rfl (.tensor [1, 3, 16, 16]) rfl

/-! ## Claim C5 -/

/-- C5 counterexample: at depth 0 the constructed model does not degenerate
to start→end — the bottom block remains between them. On the concrete
depth-0 configuration cfgC5 the forward pass applies the bottom conv block:
the result is end(bottom(start(input))), which differs from the
end(start(input)) that a start→end pipeline would produce. -/
theorem c5_counterexample :
    init cfgC5 unet_side_out_flag = .ok mC5
    ∧ forward mC5 (.tensor [1, 3, 4, 4])
        = .ok (.single (.stage .«end» (.stage .bottom (.stage .start .input))))
    ∧ Tensor.stage .«end» (.stage .bottom (.stage .start .input))
        ≠ Tensor.stage .«end» (.stage .start .input) := by
  exact ⟨rfl, rfl, by decide⟩

/-- C5 (amended): constructing with depth 0 and explicit out_channels
succeeds with no IndexError; the model has no down or up
(encoder or decoder) stages but keeps the bottom stage, so it degenerates to
start→bottom→end; the channel flow is consistent: the bottom block input
count, queried as channels("down", depth-1) = channels("down", -1), equals
initial_features (the start output), and the end block input count,
channels("up", 0), equals the bottom output count channels("bottom", -). -/
theorem c5_depth_zero (cfg : UNetConfig) (oc : Int)
    (hd : cfg.depth = 0) (hoc : cfg.out_channels = some oc)
    (hdim : cfg.dim = 1 ∨ cfg.dim = 2 ∨ cfg.dim = 3) :
    ∃ m, init cfg unet_side_out_flag = .ok m
      ∧ sideKeys m = [StageKey.«end»]
      ∧ (∀ input, _forward_sanity_check m input = .ok () →
          forward m input
            = .ok (.single (.stage .«end»
                (.stage .bottom (.stage .start .input)))))
      ∧ get_num_features m "down" (-1) = .ok m.initial_features
      ∧ get_num_features m "bottom" 0 = get_num_features m "up" 0 := by
  obtain ⟨m, hm⟩ : ∃ m, init cfg unet_side_out_flag = .ok m := by
    unfold init
    rw [if_pos hdim, hoc]
    exact ⟨_, rfl⟩
  obtain ⟨hdep, hkeys⟩ := init_ok_inv cfg unet_side_out_flag m hm
  have hd0 : m.depth = 0 := by rw [hdep, hd]
  have hk : sideKeys m = [StageKey.«end»] := by
    rw [hkeys]
    simp [unet_side_out_flag]
  refine ⟨m, hm, hk, fun input hv => ?_, ?_, ?_⟩
  · obtain ⟨-, hfwd⟩ :=
      forward_structure cfg unet_side_out_flag m hm input hv
    rw [hfwd, hk]
    simp [mkResult, stageOutT, endOutT, upPrevT, bottomOutT, downInT, hd0]
  · show get_num_features m "down" (-1) = .ok m.initial_features
    simp [get_num_features]
  · simp [get_num_features, hd0]

/-- Witness for C5 at the concrete depth-0 configuration cfgC5. -/
theorem c5_witness :
    ∃ m, init cfgC5 unet_side_out_flag = .ok m
      ∧ sideKeys m = [StageKey.«end»]
      ∧ (∀ input, _forward_sanity_check m input = .ok () →
          forward m input
            = .ok (.single (.stage .«end»
                (.stage .bottom (.stage .start .input)))))
      ∧ get_num_features m "down" (-1) = .ok m.initial_features
      ∧ get_num_features m "bottom" 0 = get_num_features m "up" 0 :=
  c5_depth_zero cfgC5 5 rfl rfl (Or.inr (Or.inl rfl))
